import Mathlib

/-!
Verification of the Matter State Machine + Artifact Versioning & Audit subsystem
of the certis.api backend, as a shallow embedding of the Python source.

Conventions of the embedding:
* Database rows become Lean structures; the request-scoped SQLAlchemy session is
  modelled transactionally: an operation returns `Except SvcErr (Db × row)`, and a
  request that raises leaves the `Db` unchanged (in the source a raised exception
  prevents `db.commit()`, so the open transaction is rolled back).
* UUID primary keys become `Nat` surrogates (`vid`); fresh ids are drawn from a
  `next_vid` counter in `Db`.
* The external LLM agents are collaborators: a generation service is embedded from
  the point where the agent call has succeeded, taking the agent's structured
  output as an argument (on agent failure the source raises before any write).
* Python `Enum` classes become inductive types.  Two enums are referenced by the
  services under names they do not define (`MatterState.RISK_RE_REVIEWED`,
  `AuditEventType.CLAIMS_EDITED`, `AuditEventType.SPEC_EDITED`).  The inductive
  types carry one constructor per name referenced anywhere in the code, a list
  `py*Members` records the members the Python class actually defines
  (src/matter/models.py, src/audit/models.py), and an attribute access is
  embedded by `py*Attr`, which raises `AttributeError` on a missing member,
  exactly as Python's `EnumType.__getattr__` does.
-/

namespace Certis

/-! ## Matter lifecycle states — src/matter/models.py

The Python enum `MatterState` defines eight members.  The constructor
`RISK_RE_REVIEWED` below is NOT among them: it exists only in the database enum
(migration af6657e265aa executes `ALTER TYPE matterstate ADD VALUE ...
'RISK_RE_REVIEWED'`) and is referenced as `MatterState.RISK_RE_REVIEWED` by
src/risk/service.py:336, src/qa/service.py:298 and src/specs/router.py:97. -/

inductive MatterState where
  | CREATED
  | BRIEF_ANALYZED
  | CLAIMS_PROPOSED
  | CLAIMS_APPROVED
  | RISK_REVIEWED
  | SPEC_GENERATED
  | RISK_RE_REVIEWED
  | QA_COMPLETE
  | LOCKED_FOR_EXPORT
deriving DecidableEq, Repr, Fintype

/-- The members the Python class `MatterState` actually defines
(src/matter/models.py lines 31-39): eight states, no `RISK_RE_REVIEWED`. -/
def pyMatterStateMembers : List MatterState :=
  [.CREATED, .BRIEF_ANALYZED, .CLAIMS_PROPOSED, .CLAIMS_APPROVED,
   .RISK_REVIEWED, .SPEC_GENERATED, .QA_COMPLETE, .LOCKED_FOR_EXPORT]

/-- Unified error type for the embedded services.  The source raises
`HTTPException(400)` for illegal transitions and `ValueError` for the service
errors; the constructors follow the spec's taxonomy names.  `attributeError` and
`typeError` embed the Python exceptions raised by an access to an undefined enum
member resp. an unmapped keyword argument of a declarative model constructor. -/
inductive SvcErr where
  | invalidTransition (src tgt : MatterState)
  | notFound (what : String)
  | missingApproval (what : String)
  | noChange
  | unknownDependency (dep : String)
  | selfDependency
  | dependentRequiresDependency
  | circularDependency
  | blockedByErrors (errorCount : Nat)
  | attributeError
  | typeError
deriving DecidableEq, Repr

/-- Python attribute access `MatterState.<s>`: `AttributeError` unless the member
is defined in src/matter/models.py. -/
def pyMatterStateAttr (s : MatterState) : Except SvcErr MatterState :=
  if s ∈ pyMatterStateMembers then .ok s else .error .attributeError

/-- The `Matter` row (src/matter/models.py).  Fields not touched by the verified
operations (reference_number, inventors, tenant/attorney/client ids, ...) are
omitted. -/
structure Matter where
  title : String
  status : MatterState
  defensibility_score : Option Int
deriving DecidableEq, Repr

/-! ## MatterService.update_status — src/matter/services.py lines 79-109 -/

/-- The `valid_transitions` dict of `MatterService.update_status`
(src/matter/services.py lines 87-96), including the `.get(current_status, [])`
default, which yields `[]` for any state that is not a key (in particular for
`RISK_RE_REVIEWED`, which is not in the dict — and not even in the Python enum). -/
def validTransitions : MatterState → List MatterState
  | .CREATED => [.BRIEF_ANALYZED]
  | .BRIEF_ANALYZED => [.CLAIMS_PROPOSED]
  | .CLAIMS_PROPOSED => [.CLAIMS_APPROVED, .BRIEF_ANALYZED]
  | .CLAIMS_APPROVED => [.RISK_REVIEWED, .SPEC_GENERATED]
  | .RISK_REVIEWED => [.SPEC_GENERATED, .CLAIMS_APPROVED]
  | .SPEC_GENERATED => [.QA_COMPLETE]
  | .QA_COMPLETE => [.LOCKED_FOR_EXPORT, .SPEC_GENERATED]
  | .LOCKED_FOR_EXPORT => []
  | .RISK_RE_REVIEWED => []

/-- Embeds `MatterService.update_status` (src/matter/services.py lines 79-109): rejects a
target not listed for the current state, otherwise persists the new status. -/
def MatterService.update_status (m : Matter) (new_status : MatterState) :
    Except SvcErr Matter :=
  if new_status ∈ validTransitions m.status then
    .ok { m with status := new_status }
  else
    .error (.invalidTransition m.status new_status)

/-- The matter row as it stands after the request: unchanged when the request
raised (the transaction is rolled back). -/
def afterUpdateStatus (m : Matter) (new_status : MatterState) : Matter :=
  match MatterService.update_status m new_status with
  | .ok m' => m'
  | .error _ => m

/-- The transition pairs actually allowed by the code's `valid_transitions`
dict, written out exhaustively. -/
def codeTransitionPairs : List (MatterState × MatterState) :=
  [(.CREATED, .BRIEF_ANALYZED),
   (.BRIEF_ANALYZED, .CLAIMS_PROPOSED),
   (.CLAIMS_PROPOSED, .CLAIMS_APPROVED), (.CLAIMS_PROPOSED, .BRIEF_ANALYZED),
   (.CLAIMS_APPROVED, .RISK_REVIEWED), (.CLAIMS_APPROVED, .SPEC_GENERATED),
   (.RISK_REVIEWED, .SPEC_GENERATED), (.RISK_REVIEWED, .CLAIMS_APPROVED),
   (.SPEC_GENERATED, .QA_COMPLETE),
   (.QA_COMPLETE, .LOCKED_FOR_EXPORT), (.QA_COMPLETE, .SPEC_GENERATED)]

/-! ## Claim graph payload — src/drafting/schemas.py

`ClaimNode.type` is `Literal["independent","dependent"]` and `category` is
`Literal["method","system","apparatus","crm"] | None`; both are embedded as
strings.  `ClaimGraph.risk_score`, `canonical_model` and `scope_validation` are
opaque and never touched by the editor operations, so they are omitted. -/

structure ClaimNode where
  id : String
  type : String
  text : String
  dependencies : List String
  category : Option String
  mirror_source : Option String
deriving DecidableEq, Repr

structure ClaimGraph where
  nodes : List ClaimNode
deriving DecidableEq, Repr

/-! ## Cycle detection — DraftingService._check_circular_dependencies
(src/drafting/service.py lines 257-278)

The source builds `adj = {n.id: list(n.dependencies) for n in nodes}` (a dict
comprehension, so a later node with a duplicated id overwrites an earlier one)
and runs a recursive depth-first search with `visited` / `in_stack` sets,
reporting a cycle when a dependency target is already on the recursion stack.

The Python recursion needs no fuel: `dfs` is only ever entered on an unvisited
id and marks it visited immediately, so the nesting depth is bounded by the
number of distinct ids plus one.  The embedding passes `nodes.length + 2` units
of fuel, which exceeds that bound; running out of fuel conservatively reports a
cycle, so a `false` ("no cycle") answer is always a completed search. -/

structure DfsSt where
  visited : List String
  inStack : List String
deriving DecidableEq, Repr

/-- The `for dep in adj.get(nid, [])` loop body of `dfs`: a dependency already
on the stack is a cycle; an unvisited dependency is searched recursively via
`next` (the one-level-deeper `dfs`, passed as a function so both definitions
are structurally recursive and kernel-reducible). -/
def dfsStep (next : String → DfsSt → Bool × DfsSt) :
    List String → DfsSt → Bool × DfsSt
  | [], s => (false, s)
  | dep :: rest, s =>
    if dep ∈ s.inStack then (true, s)
    else if dep ∈ s.visited then dfsStep next rest s
    else match next dep s with
      | (true, s₂) => (true, s₂)
      | (false, s₂) => dfsStep next rest s₂

/-- The inner `dfs(nid)` of `_check_circular_dependencies`: mark `nid` visited
and on-stack, scan its adjacency, and pop it from the stack when no cycle was
found below it.  `true` means "cycle detected". -/
def dfsNode (adj : String → List String) : Nat → String → DfsSt → Bool × DfsSt
  | 0, _, s => (true, s)
  | fuel + 1, nid, s =>
    match dfsStep (dfsNode adj fuel) (adj nid)
        ⟨nid :: s.visited, nid :: s.inStack⟩ with
    | (true, s₂) => (true, s₂)
    | (false, s₂) => (false, ⟨s₂.visited, s₂.inStack.erase nid⟩)

/-- The outer `for nid in node_ids` loop of `_check_circular_dependencies`.
Python iterates the set `node_ids` in unspecified order; the embedding iterates
the node ids in list order (duplicates are skipped as already visited).  The
soundness theorem below is independent of this order. -/
def dfsRoots (adj : String → List String) (fuel : Nat) (roots : List String)
    (s : DfsSt) : Bool :=
  match roots with
  | [] => false
  | r :: rest =>
    if r ∈ s.visited then dfsRoots adj fuel rest s
    else match dfsNode adj fuel r s with
      | (true, _) => true
      | (false, s₂) => dfsRoots adj fuel rest s₂

/-- The adjacency dict `{n.id: list(n.dependencies) for n in nodes}` with the
`.get(·, [])` default: the dependencies of the LAST node carrying the id (dict
comprehension semantics), `[]` for an id that is not a node. -/
def adjOf (nodes : List ClaimNode) (i : String) : List String :=
  match nodes.reverse.find? (fun n => n.id == i) with
  | some n => n.dependencies
  | none => []

/-- The `_check_circular_dependencies` search as a Bool: does the DFS report a cycle? -/
def hasCycleDFS (nodes : List ClaimNode) : Bool :=
  dfsRoots (adjOf nodes) (nodes.length + 2) (nodes.map (·.id)) ⟨[], []⟩

/-- Embeds `DraftingService._check_circular_dependencies` (src/drafting/service.py
lines 257-278): raises `ValueError("Circular dependency detected ...")` when
the DFS finds a cycle. -/
def checkCircularDependencies (nodes : List ClaimNode) : Except SvcErr Unit :=
  if hasCycleDFS nodes then .error .circularDependency else .ok ()

/-! ### Mathematical acyclicity

The dependency relation of a graph, and cycles as nonempty `TransGen` loops.
An edge `a → b` exists when `b` appears in the adjacency of `a`; since only
node ids have nonempty adjacency, every vertex on a cycle is a node of the
graph, matching the spec's "restricted to nodes present in the graph". -/

def Edge (adj : String → List String) (a b : String) : Prop := b ∈ adj a

/-- A dependency cycle: some id reaches itself in one or more edge steps. -/
def HasCycle (nodes : List ClaimNode) : Prop :=
  ∃ a, Relation.TransGen (Edge (adjOf nodes)) a a

/-! ### Soundness of the DFS check

We prove: when the search reports no cycle, the dependency relation is acyclic.
The invariant is the classic colouring argument: `Black` ids (visited and off
the recursion stack) are finished, every edge out of a black id leads to a
black id, and a rank function decreases along such edges; a completed search
leaves every node id black, and a `TransGen` loop would make the rank of some
id smaller than itself. -/

/-- A finished ("black") id: visited and not on the recursion stack. -/
def Black (s : DfsSt) (x : String) : Prop := x ∈ s.visited ∧ x ∉ s.inStack

/-- The black ids are closed under edges and carry a strictly decreasing rank. -/
def RankedBlack (adj : String → List String) (s : DfsSt) (r : String → Nat) : Prop :=
  ∀ b, Black s b → ∀ c, c ∈ adj b → Black s c ∧ r c < r b

def Inv (adj : String → List String) (s : DfsSt) : Prop :=
  ∃ r, RankedBlack adj s r

/-- What a completed (`false`) depth-first visit from an unvisited id
guarantees. -/
def NodeSpecF (adj : String → List String)
    (next : String → DfsSt → Bool × DfsSt) : Prop :=
  ∀ nid s s', nid ∉ s.visited → s.inStack ⊆ s.visited →
    next nid s = (false, s') →
    s'.inStack = s.inStack ∧ s.visited ⊆ s'.visited ∧ Black s' nid ∧
      (Inv adj s → Inv adj s')

lemma le_foldr_max (l : List Nat) (a : Nat) (h : a ∈ l) : a ≤ l.foldr max 0 := by
  induction l with
  | nil => cases h
  | cons x xs ih =>
    rcases List.mem_cons.mp h with rfl | h'
    · exact le_max_left _ _
    · exact le_trans (ih h') (le_max_right _ _)

/-- Pushing a fresh id onto both sets does not change the black set. -/
lemma black_push {s : DfsSt} {nid : String} (h : nid ∉ s.visited) (x : String) :
    Black ⟨nid :: s.visited, nid :: s.inStack⟩ x ↔ Black s x := by
  unfold Black
  constructor
  · rintro ⟨hv, hns⟩
    have hx : x ≠ nid := fun he => hns (he ▸ List.mem_cons_self _ _)
    exact ⟨(List.mem_cons.mp hv).resolve_left hx, fun hx' => hns (List.mem_cons_of_mem _ hx')⟩
  · rintro ⟨hv, hns⟩
    have hx : x ≠ nid := fun he => h (he ▸ hv)
    exact ⟨List.mem_cons_of_mem _ hv,
      fun hx' => hns ((List.mem_cons.mp hx').resolve_left hx)⟩

lemma black_mono {s s' : DfsSt} (hst : s'.inStack = s.inStack)
    (hv : s.visited ⊆ s'.visited) {x : String} (h : Black s x) : Black s' x :=
  ⟨hv h.1, hst ▸ h.2⟩

lemma inv_push {adj : String → List String} {s : DfsSt} {nid : String}
    (h : nid ∉ s.visited) (hi : Inv adj s) :
    Inv adj ⟨nid :: s.visited, nid :: s.inStack⟩ := by
  obtain ⟨r, hr⟩ := hi
  refine ⟨r, fun b hb c hc => ?_⟩
  obtain ⟨hbc, hlt⟩ := hr b ((black_push h b).mp hb) c hc
  exact ⟨(black_push h c).mpr hbc, hlt⟩

/-- The rank-extension step: when `nid` is popped after all its dependencies
finished black, the black set plus `nid` is still ranked. -/
lemma inv_pop {adj : String → List String} {s₂ : DfsSt} {nid : String}
    (hmem : nid ∈ s₂.inStack)
    (hdeps : ∀ d ∈ adj nid, Black s₂ d) (hi : Inv adj s₂) :
    Inv adj ⟨s₂.visited, s₂.inStack.erase nid⟩ := by
  obtain ⟨r, hr⟩ := hi
  refine ⟨fun x => if x = nid then ((adj nid).map r).foldr max 0 + 1 else r x,
    fun b hb c hc => ?_⟩
  by_cases hbn : b = nid
  · rw [hbn] at hc
    obtain ⟨hcv, hcs⟩ := hdeps c hc
    have hcn : c ≠ nid := fun he => hcs (he ▸ hmem)
    refine ⟨⟨hcv, fun hmem' => hcs (List.mem_of_mem_erase hmem')⟩, ?_⟩
    show (if c = nid then ((adj nid).map r).foldr max 0 + 1 else r c) <
      if b = nid then ((adj nid).map r).foldr max 0 + 1 else r b
    rw [if_neg hcn, if_pos hbn]
    exact Nat.lt_succ_of_le (le_foldr_max _ _ (List.mem_map_of_mem r hc))
  · have hbs : b ∉ s₂.inStack := fun hbs =>
      hb.2 ((List.mem_erase_of_ne hbn).mpr hbs)
    obtain ⟨⟨hcv, hcs⟩, hlt⟩ := hr b ⟨hb.1, hbs⟩ c hc
    have hcn : c ≠ nid := fun he => hcs (he ▸ hmem)
    refine ⟨⟨hcv, fun hmem' => hcs (List.mem_of_mem_erase hmem')⟩, ?_⟩
    show (if c = nid then ((adj nid).map r).foldr max 0 + 1 else r c) <
      if b = nid then ((adj nid).map r).foldr max 0 + 1 else r b
    rw [if_neg hcn, if_neg hbn]
    exact hlt

/-- What a completed (`false`) dependency scan guarantees, given the guarantee
for the recursive visit: the scanned dependencies all end up black. -/
lemma dfsStep_spec (adj : String → List String)
    (next : String → DfsSt → Bool × DfsSt) (hn : NodeSpecF adj next) :
    ∀ deps s s', s.inStack ⊆ s.visited →
      dfsStep next deps s = (false, s') →
      s'.inStack = s.inStack ∧ s.visited ⊆ s'.visited ∧
        (∀ d ∈ deps, Black s' d) ∧ (Inv adj s → Inv adj s') := by
  intro deps
  induction deps with
  | nil =>
    intro s s' _ heq
    simp only [dfsStep, Prod.mk.injEq] at heq
    obtain ⟨-, rfl⟩ := heq
    exact ⟨rfl, fun _ h => h, fun d hd => absurd hd (List.not_mem_nil d), id⟩
  | cons dep rest ih =>
    intro s s' hws heq
    unfold dfsStep at heq
    by_cases hin : dep ∈ s.inStack
    · simp [hin] at heq
    · rw [if_neg hin] at heq
      by_cases hv : dep ∈ s.visited
      · rw [if_pos hv] at heq
        obtain ⟨e, m, bl, inv⟩ := ih s s' hws heq
        refine ⟨e, m, ?_, inv⟩
        intro d hd
        rcases List.mem_cons.mp hd with rfl | hd'
        · exact ⟨m hv, e ▸ hin⟩
        · exact bl d hd'
      · rw [if_neg hv] at heq
        rcases h₂ : next dep s with ⟨b, s₂⟩
        rw [h₂] at heq
        cases b with
        | true => simp at heq
        | false =>
          obtain ⟨e₂, m₂, bl₂, inv₂⟩ := hn dep s s₂ hv hws h₂
          have hws₂ : s₂.inStack ⊆ s₂.visited := by
            rw [e₂]; exact fun x hx => m₂ (hws hx)
          obtain ⟨e₃, m₃, bl₃, inv₃⟩ := ih s₂ s' hws₂ heq
          refine ⟨e₃.trans e₂, fun x hx => m₃ (m₂ hx), ?_, fun hi => inv₃ (inv₂ hi)⟩
          intro d hd
          rcases List.mem_cons.mp hd with rfl | hd'
          · exact black_mono e₃ m₃ bl₂
          · exact bl₃ d hd'

lemma dfsNode_spec (adj : String → List String) :
    ∀ fuel, NodeSpecF adj (dfsNode adj fuel) := by
  intro fuel
  induction fuel with
  | zero =>
    intro nid s s' _ _ heq
    simp [dfsNode] at heq
  | succ n ihn =>
    intro nid s s' hnv hws heq
    unfold dfsNode at heq
    rcases h₂ : dfsStep (dfsNode adj n) (adj nid)
        ⟨nid :: s.visited, nid :: s.inStack⟩ with ⟨b, s₂⟩
    rw [h₂] at heq
    cases b with
    | true => simp at heq
    | false =>
      simp only [Prod.mk.injEq] at heq
      obtain ⟨-, hs'⟩ := heq
      have hws₁ : (DfsSt.mk (nid :: s.visited) (nid :: s.inStack)).inStack ⊆
          (DfsSt.mk (nid :: s.visited) (nid :: s.inStack)).visited :=
        List.cons_subset_cons _ hws
      obtain ⟨e₁, m₁, bl₁, inv₁⟩ := dfsStep_spec adj _ ihn (adj nid) _ s₂ hws₁ h₂
      have hnstk : nid ∉ s.inStack := fun hmem => hnv (hws hmem)
      have hstk' : s'.inStack = s.inStack := by
        rw [← hs']
        simp only [e₁]
        exact List.erase_cons_head _ _
      have hvis' : s.visited ⊆ s'.visited := by
        rw [← hs']
        exact fun x hx => m₁ (List.mem_cons_of_mem _ hx)
      refine ⟨hstk', hvis', ?_, ?_⟩
      · rw [← hs']
        exact ⟨m₁ (List.mem_cons_self _ _), by
          simp only [e₁]
          rw [List.erase_cons_head]
          exact hnstk⟩
      · intro hi
        rw [← hs']
        refine inv_pop ?_ bl₁ (inv₁ (inv_push hnv hi))
        rw [e₁]; exact List.mem_cons_self _ _

/-- A completed (`false`) root scan from an empty stack reaches a state in which
every root is visited, the stack is empty again, and the ranked-black invariant
holds. -/
lemma rootsSpec (adj : String → List String) (fuel : Nat) :
    ∀ roots s, s.inStack = [] → Inv adj s →
      dfsRoots adj fuel roots s = false →
      ∃ s', s'.inStack = [] ∧ s.visited ⊆ s'.visited ∧
        (∀ rt ∈ roots, rt ∈ s'.visited) ∧ Inv adj s' := by
  intro roots
  induction roots with
  | nil =>
    intro s hstk hi _
    exact ⟨s, hstk, fun _ h => h, fun d hd => absurd hd (List.not_mem_nil d), hi⟩
  | cons r rest ih =>
    intro s hstk hi heq
    unfold dfsRoots at heq
    by_cases hv : r ∈ s.visited
    · rw [if_pos hv] at heq
      obtain ⟨s', h1, h2, h3, h4⟩ := ih s hstk hi heq
      exact ⟨s', h1, h2, fun rt hrt => ((List.mem_cons.mp hrt).elim
        (fun he => he ▸ h2 hv) (h3 rt)), h4⟩
    · rw [if_neg hv] at heq
      rcases h₂ : dfsNode adj fuel r s with ⟨b, s₂⟩
      rw [h₂] at heq
      cases b with
      | true => simp at heq
      | false =>
        have hws : s.inStack ⊆ s.visited := by
          rw [hstk]; exact List.nil_subset _
        obtain ⟨e₂, m₂, bl₂, inv₂⟩ := dfsNode_spec adj fuel r s s₂ hv hws h₂
        have hstk₂ : s₂.inStack = [] := e₂.trans hstk
        obtain ⟨s', h1, h2, h3, h4⟩ := ih s₂ hstk₂ (inv₂ hi) heq
        exact ⟨s', h1, fun x hx => h2 (m₂ hx), fun rt hrt =>
          ((List.mem_cons.mp hrt).elim (fun he => he ▸ h2 bl₂.1) (h3 rt)), h4⟩

/-- In one or more edge steps out of a black id, blackness is kept and the rank
strictly decreases. -/
lemma transGen_rank {adj : String → List String} {s : DfsSt} {r : String → Nat}
    (hr : RankedBlack adj s r) :
    ∀ {a c}, Relation.TransGen (Edge adj) a c → Black s a → Black s c ∧ r c < r a := by
  intro a c htg
  induction htg with
  | single h => exact fun hb => hr _ hb _ h
  | tail htg h ih =>
    intro hb
    obtain ⟨hmid, hlt⟩ := ih hb
    obtain ⟨hc, hlt₂⟩ := hr _ hmid _ h
    exact ⟨hc, hlt₂.trans hlt⟩

lemma transGen_first {α : Type} {rel : α → α → Prop} {a c : α}
    (h : Relation.TransGen rel a c) : ∃ b, rel a b := by
  induction h with
  | single h => exact ⟨_, h⟩
  | tail _ _ ih => exact ih

/-- Soundness of the DFS: a completed root scan that reports no cycle implies
the edge relation has no loop, provided every edge source is among the roots. -/
theorem dfs_no_cycle (adj : String → List String) (roots : List String) (fuel : Nat)
    (hroots : ∀ a b, Edge adj a b → a ∈ roots)
    (hfalse : dfsRoots adj fuel roots ⟨[], []⟩ = false) :
    ∀ a, ¬Relation.TransGen (Edge adj) a a := by
  have hinv : Inv adj ⟨[], []⟩ :=
    ⟨fun _ => 0, fun b hb => absurd hb.1 (List.not_mem_nil b)⟩
  obtain ⟨s', hstk, -, hall, r, hr⟩ := rootsSpec adj fuel roots ⟨[], []⟩ rfl hinv hfalse
  intro a htg
  obtain ⟨b, hab⟩ := transGen_first htg
  have ha : a ∈ roots := hroots a b hab
  have hba : Black s' a := ⟨hall a ha, by rw [hstk]; exact List.not_mem_nil a⟩
  obtain ⟨-, hlt⟩ := transGen_rank hr htg hba
  exact absurd hlt (lt_irrefl _)

/-- Every edge source of `adjOf nodes` is a node id. -/
lemma edge_src_mem (nodes : List ClaimNode) {a b : String}
    (h : Edge (adjOf nodes) a b) : a ∈ nodes.map (·.id) := by
  unfold Edge adjOf at h
  rcases hf : nodes.reverse.find? (fun n => n.id == a) with - | n
  · rw [hf] at h; exact absurd h (List.not_mem_nil b)
  · have hmem : n ∈ nodes.reverse := List.mem_of_find?_eq_some hf
    have hid : n.id = a := by
      have := List.find?_some hf
      exact eq_of_beq this
    exact hid ▸ List.mem_map_of_mem _ (List.mem_reverse.mp hmem)

/-- Main soundness corollary: when `_check_circular_dependencies` raises no
error, the graph's dependency relation is acyclic. -/
theorem checkCircular_ok_no_cycle (nodes : List ClaimNode)
    (h : checkCircularDependencies nodes = .ok ()) : ¬HasCycle nodes := by
  rintro ⟨a, htg⟩
  have hfalse : hasCycleDFS nodes = false := by
    by_contra hne
    rw [Bool.not_eq_false] at hne
    simp [checkCircularDependencies, hne] at h
  exact dfs_no_cycle (adjOf nodes) (nodes.map (·.id)) (nodes.length + 2)
    (fun x y hxy => edge_src_mem nodes hxy) hfalse a htg

/-- Contrapositive, as the services consume it: a graph with a dependency cycle
makes `_check_circular_dependencies` raise. -/
theorem checkCircular_cycle_error (nodes : List ClaimNode)
    (h : HasCycle nodes) :
    checkCircularDependencies nodes = .error .circularDependency := by
  unfold checkCircularDependencies
  rcases hb : hasCycleDFS nodes with - | -
  · exact absurd (checkCircular_ok_no_cycle nodes (by simp [checkCircularDependencies, hb])) (by simpa using h)
  · simp

/-! ## Claim graph editor — the pure graph computations of
`DraftingService.edit_claim` / `add_claim` / `delete_claim`
(src/drafting/service.py lines 337-466)

Each service method deserializes the source version's payload, computes a new
graph, and hands it to `_clone_and_save_version`; the graph computations are
embedded here as pure functions, the persistence wrapper below. -/

/-- The `EditClaimRequest` schema (src/drafting/schemas.py).  A `none` field is an unset
field (`model_dump(exclude_unset=True)` drops it); the embedding does not
distinguish a field explicitly set to `null` from an unset one. -/
structure EditClaimRequest where
  text : Option String := none
  type : Option String := none
  category : Option (Option String) := none
  dependencies : Option (List String) := none
deriving DecidableEq, Repr

/-- The `not updates` test after `model_dump(exclude_unset=True)`: no field provided. -/
def EditClaimRequest.isEmpty (p : EditClaimRequest) : Bool :=
  p.text.isNone && p.type.isNone && p.category.isNone && p.dependencies.isNone

/-- The `for field, value in updates.items(): setattr(target, field, value)`
loop: each provided field overwrites the node's field. -/
def applyPatch (n : ClaimNode) (p : EditClaimRequest) : ClaimNode :=
  { n with
    text := p.text.getD n.text
    type := p.type.getD n.type
    category := p.category.getD n.category
    dependencies := p.dependencies.getD n.dependencies }

/-- The `for dep_id in patch.dependencies` validation loop of `edit_claim`:
unknown dependency first, then self-dependency, first offending entry wins. -/
def validateEditDeps (all_ids : List String) (node_id : String) :
    List String → Except SvcErr Unit
  | [] => .ok ()
  | d :: rest =>
    if d ∉ all_ids then .error (.unknownDependency d)
    else if d = node_id then .error .selfDependency
    else validateEditDeps all_ids node_id rest

/-- The source mutates the first node `next(...)` finds with the id; embedding:
replace the first matching node. -/
def replaceNode (nodes : List ClaimNode) (node_id : String)
    (f : ClaimNode → ClaimNode) : List ClaimNode :=
  match nodes with
  | [] => []
  | n :: rest =>
    if n.id = node_id then f n :: rest else n :: replaceNode rest node_id f

/-- The node list after applying an edit patch to the target node. -/
def patchedNodes (g : ClaimGraph) (node_id : String) (p : EditClaimRequest) :
    List ClaimNode :=
  replaceNode g.nodes node_id (fun n => applyPatch n p)

/-- The graph computation of `DraftingService.edit_claim`
(src/drafting/service.py lines 337-378): find the node, reject an empty patch,
validate patched dependencies, apply the patch, re-run full-graph cycle
detection. -/
def editNodeGraph (g : ClaimGraph) (node_id : String) (p : EditClaimRequest) :
    Except SvcErr ClaimGraph :=
  match g.nodes.find? (fun n => n.id == node_id) with
  | none => .error (.notFound ("Claim node " ++ node_id ++ " not found"))
  | some _ =>
    if p.isEmpty then .error .noChange
    else
      let depCheck : Except SvcErr Unit :=
        match p.dependencies with
        | some deps => validateEditDeps (g.nodes.map (·.id)) node_id deps
        | none => .ok ()
      depCheck.bind fun _ =>
        let nodes' := patchedNodes g node_id p
        (checkCircularDependencies nodes').bind fun _ =>
          .ok { nodes := nodes' }

/-- The `for dep_id in request.dependencies` validation loop of `add_claim`
(existence only; no self check — the new node's id is fresh). -/
def validateAddDeps (all_ids : List String) : List String → Except SvcErr Unit
  | [] => .ok ()
  | d :: rest =>
    if d ∉ all_ids then .error (.unknownDependency d)
    else validateAddDeps all_ids rest

/-- The `AddClaimRequest` schema (src/drafting/schemas.py). -/
structure AddClaimRequest where
  type : String
  text : String
  category : Option String := none
  dependencies : List String := []
deriving DecidableEq, Repr

/-- The `max(existing_int_ids, default=0)` computation: node ids parsed as integers,
non-numeric ids ignored (`except ValueError: pass`). -/
def maxIntId (nodes : List ClaimNode) : Int :=
  ((nodes.filterMap (fun n => n.id.toInt?)).max?).getD 0

/-- The graph computation of `DraftingService.add_claim`
(src/drafting/service.py lines 380-425). -/
def addNodeGraph (g : ClaimGraph) (req : AddClaimRequest) :
    Except SvcErr ClaimGraph :=
  (validateAddDeps (g.nodes.map (·.id)) req.dependencies).bind fun _ =>
    if req.type == "dependent" && req.dependencies.isEmpty then
      .error .dependentRequiresDependency
    else
      let next_id := toString (maxIntId g.nodes + 1)
      let new_node : ClaimNode :=
        { id := next_id, type := req.type, text := req.text,
          dependencies := req.dependencies, category := req.category,
          mirror_source := none }
      let nodes' := g.nodes ++ [new_node]
      (checkCircularDependencies nodes').bind fun _ => .ok { nodes := nodes' }

/-- Lookup in a Python dict built from an association list: insertion order,
later bindings overwrite earlier ones, hence find in the reversed list. -/
def dictLookup (pairs : List (String × String)) (k : String) : Option String :=
  (pairs.reverse.find? (fun q => q.1 == k)).map (fun q => q.2)

/-- The `renumber_map` of `delete_claim`: remaining node ids mapped to `"1"`,
`"2"`, ... in their current order (`enumerate(graph.nodes, start=1)`). -/
def renumberPairs (remaining : List ClaimNode) : List (String × String) :=
  remaining.enum.map (fun q => (q.2.id, toString (q.1 + 1)))

/-- The graph computation of `DraftingService.delete_claim`
(src/drafting/service.py lines 427-466): remove every node carrying the id,
renumber the remaining nodes sequentially, rewrite dependencies through the
renumber map (silently dropping ids not in the map) and rewrite or null out
`mirror_source`.  NOTE: unlike `edit_claim`/`add_claim`, no cycle detection is
run here. -/
def deleteNodeGraph (g : ClaimGraph) (node_id : String) :
    Except SvcErr ClaimGraph :=
  if !g.nodes.any (fun n => n.id == node_id) then
    .error (.notFound ("Claim node " ++ node_id ++ " not found"))
  else
    let remaining := g.nodes.filter (fun n => n.id != node_id)
    let pairs := renumberPairs remaining
    .ok { nodes := remaining.enum.map (fun q =>
      { q.2 with
        id := toString (q.1 + 1)
        dependencies := q.2.dependencies.filterMap (dictLookup pairs)
        mirror_source := q.2.mirror_source.bind (dictLookup pairs) }) }

/-- The 0-based position of the first occurrence of `d` in a list of ids. -/
def posLookup (l : List String) (d : String) : Option Nat :=
  match l with
  | [] => none
  | x :: rest => if x = d then some 0 else (posLookup rest d).map (fun i => i + 1)

/-- The old→new id map in the words of the spec: an old id is sent to the
1-based position of its node among the remaining nodes, and to `none` when no
remaining node carries it (in particular for the deleted id). -/
def specRenum (g : ClaimGraph) (node_id : String) (d : String) : Option String :=
  (posLookup ((g.nodes.filter (fun n => n.id != node_id)).map (fun n => n.id)) d).map
    (fun i => toString (i + 1))

/-! ## Audit events — src/audit/models.py

The Python enum `AuditEventType` defines FOURTEEN members.  The constructors
`CLAIMS_EDITED` and `SPEC_EDITED` below are NOT among them; they are referenced
as `AuditEventType.CLAIMS_EDITED` (src/drafting/service.py line 321) and
`AuditEventType.SPEC_EDITED` (src/specs/service.py line 415). -/

inductive AuditEventType where
  | BRIEF_UPLOADED
  | BRIEF_APPROVED
  | CLAIMS_GENERATED
  | CLAIMS_COMMITTED
  | CLAIMS_EDITED
  | RISK_ANALYZED
  | RISK_COMMITTED
  | SPEC_GENERATED
  | SPEC_COMMITTED
  | SPEC_EDITED
  | RISK_RE_EVALUATED
  | RISK_RE_EVAL_COMMITTED
  | QA_VALIDATED
  | QA_COMMITTED
  | MATTER_LOCKED
  | EXPORT_GENERATED
deriving DecidableEq, Repr

/-- The members the Python class `AuditEventType` actually defines
(src/audit/models.py lines 10-24): fourteen values, no `CLAIMS_EDITED`, no
`SPEC_EDITED`. -/
def pyAuditEventTypeMembers : List AuditEventType :=
  [.BRIEF_UPLOADED, .BRIEF_APPROVED,
   .CLAIMS_GENERATED, .CLAIMS_COMMITTED,
   .RISK_ANALYZED, .RISK_COMMITTED,
   .SPEC_GENERATED, .SPEC_COMMITTED,
   .RISK_RE_EVALUATED, .RISK_RE_EVAL_COMMITTED,
   .QA_VALIDATED, .QA_COMMITTED,
   .MATTER_LOCKED, .EXPORT_GENERATED]

/-- Python attribute access `AuditEventType.<e>`: `AttributeError` unless the
member is defined in src/audit/models.py. -/
def pyAuditEventTypeAttr (e : AuditEventType) : Except SvcErr AuditEventType :=
  if e ∈ pyAuditEventTypeMembers then .ok e else .error .attributeError

/-- An `audit_events` row (src/audit/models.py); `detail` (opaque JSON) and the
timestamp are omitted. -/
structure AuditEvent where
  event_type : AuditEventType
  actor_id : Option Nat
  artifact_version_id : Option Nat
  artifact_type : String
deriving DecidableEq, Repr

/-! ## Version rows and the database state -/

/-- A `claim_graph_versions` row (src/artifacts/claims/models.py). -/
structure ClaimGraphVersionRec where
  vid : Nat
  version_number : Nat
  description : String
  graph_data : ClaimGraph
  is_authoritative : Bool
deriving DecidableEq, Repr

/-- The `RiskAnalysis` payload (src/risk/schemas.py); the findings list is
opaque to the verified operations and is omitted. -/
structure RiskAnalysis where
  defensibility_score : Int
  summary : String
deriving DecidableEq, Repr

/-- A `risk_analysis_versions` row (src/risk/models.py).  NOTE: the model
declares NO `spec_version_id` attribute, although migration af6657e265aa adds
such a column to the table and `RiskService.re_evaluate_risk_post_spec` passes
it as a constructor keyword. -/
structure RiskAnalysisVersionRec where
  vid : Nat
  version_number : Nat
  description : String
  analysis_data : RiskAnalysis
  is_authoritative : Bool
  claim_version_id : Option Nat
deriving DecidableEq, Repr

/-- A `spec_versions` row (src/artifacts/specs/models.py); the `content_data`
payload and cross-references are opaque to the verified operations. -/
structure SpecVersionRec where
  vid : Nat
  version_number : Nat
  is_authoritative : Bool
deriving DecidableEq, Repr

/-- The `QAReport` payload fields the QA gate reads
(`report_data.get("can_export", False)`, `report_data.get("total_errors", 0)`);
the findings are opaque and omitted. -/
structure QAReport where
  total_errors : Nat
  can_export : Bool
deriving DecidableEq, Repr

/-- A `qa_report_versions` row (src/qa/models.py). -/
structure QAReportVersionRec where
  vid : Nat
  version_number : Nat
  description : String
  report_data : QAReport
  is_authoritative : Bool
  claim_version_id : Option Nat
  spec_version_id : Option Nat
deriving DecidableEq, Repr

/-- The `workstreams` row (src/workstreams/models.py): the five nullable head
pointers (name/status/type columns omitted; the services always select the
`DRAFTING_APPLICATION` workstream of the matter). -/
structure Workstream where
  active_brief_version_id : Option Nat := none
  active_claim_version_id : Option Nat := none
  active_spec_version_id : Option Nat := none
  active_risk_version_id : Option Nat := none
  active_qa_version_id : Option Nat := none
deriving DecidableEq, Repr

/-- The database state one matter's requests read and write.  `workstream` is
the matter's `DRAFTING_APPLICATION` workstream row, when one exists (the
services tolerate its absence with `if workstream:`). -/
structure Db where
  matter : Matter
  claim_versions : List ClaimGraphVersionRec
  risk_versions : List RiskAnalysisVersionRec
  spec_versions : List SpecVersionRec
  qa_versions : List QAReportVersionRec
  workstream : Option Workstream
  audit_events : List AuditEvent
  next_vid : Nat
deriving DecidableEq, Repr

/-- The `SELECT ... ORDER BY version_number DESC LIMIT 1` read: an element with the
greatest key (the first such element when keys are duplicated — the theorems
that depend on the choice assume distinct keys, which the schema's
`(matter_id, version_number)` uniqueness guarantees). -/
def pickLatest {α : Type} (f : α → Nat) (acc : Option α) (x : α) : Option α :=
  match acc with
  | none => some x
  | some y => if f y < f x then some x else some y

def latestBy {α : Type} (l : List α) (f : α → Nat) : Option α :=
  l.foldl (pickLatest f) none

/-- The `(latest_version.version_number + 1) if latest_version else 1` rule. -/
def nextVersionNumber {α : Type} (l : List α) (f : α → Nat) : Nat :=
  match latestBy l f with
  | none => 1
  | some v => f v + 1

/-! ## DraftingService — src/drafting/service.py -/

namespace DraftingService

/-- Embeds `generate_claims` (lines 116-199), from the point where the claims agent
has returned a graph: number and insert a non-authoritative proposal, advance
`BRIEF_ANALYZED → CLAIMS_PROPOSED`, move the workstream claim pointer, and
append one `CLAIMS_GENERATED` audit event. -/
def generate_claims (db : Db) (claim_graph : ClaimGraph) :
    Db × ClaimGraphVersionRec :=
  let next_version := nextVersionNumber db.claim_versions (fun v => v.version_number)
  let proposal : ClaimGraphVersionRec :=
    { vid := db.next_vid, version_number := next_version,
      description := "AI Generated Proposal", graph_data := claim_graph,
      is_authoritative := false }
  let matter' :=
    if db.matter.status = .BRIEF_ANALYZED then
      { db.matter with status := .CLAIMS_PROPOSED }
    else db.matter
  let ws' := db.workstream.map
    (fun w => { w with active_claim_version_id := some proposal.vid })
  let audit : AuditEvent :=
    { event_type := .CLAIMS_GENERATED, actor_id := none,
      artifact_version_id := some proposal.vid, artifact_type := "claims" }
  ({ db with
      matter := matter',
      claim_versions := db.claim_versions ++ [proposal],
      workstream := ws',
      audit_events := db.audit_events ++ [audit],
      next_vid := db.next_vid + 1 }, proposal)

/-- Embeds `commit_version` (lines 201-244): flag the target authoritative, advance
`CLAIMS_PROPOSED → CLAIMS_APPROVED`, move the pointer, append one
`CLAIMS_COMMITTED` audit event. -/
def commit_version (db : Db) (version_id : Nat) :
    Except SvcErr (Db × ClaimGraphVersionRec) :=
  match db.claim_versions.find? (fun v => v.vid == version_id) with
  | none => .error (.notFound "Version not found")
  | some v =>
    let v' := { v with is_authoritative := true }
    let claim_versions' :=
      db.claim_versions.map (fun w => if w.vid == version_id then v' else w)
    let matter' :=
      if db.matter.status = .CLAIMS_PROPOSED then
        { db.matter with status := .CLAIMS_APPROVED }
      else db.matter
    let ws' := db.workstream.map
      (fun w => { w with active_claim_version_id := some v'.vid })
    let audit : AuditEvent :=
      { event_type := .CLAIMS_COMMITTED, actor_id := none,
        artifact_version_id := some v'.vid, artifact_type := "claims" }
    .ok ({ db with
        matter := matter',
        claim_versions := claim_versions',
        workstream := ws',
        audit_events := db.audit_events ++ [audit] }, v')

/-- Embeds `_clone_and_save_version` (lines 280-335): insert the mutated graph as a
new non-authoritative version, move the pointer, append an audit event tagged
`AuditEventType.CLAIMS_EDITED` — an attribute the Python enum does not define,
so this access raises `AttributeError` before `db.commit()` and the whole
request rolls back — then reset `CLAIMS_APPROVED → CLAIMS_PROPOSED`. -/
def clone_and_save_version (db : Db) (graph : ClaimGraph) (description : String)
    (actor_id : Option Nat) : Except SvcErr (Db × ClaimGraphVersionRec) :=
  let next_version := nextVersionNumber db.claim_versions (fun v => v.version_number)
  let proposal : ClaimGraphVersionRec :=
    { vid := db.next_vid, version_number := next_version,
      description := description, graph_data := graph,
      is_authoritative := false }
  let ws' := db.workstream.map
    (fun w => { w with active_claim_version_id := some proposal.vid })
  (pyAuditEventTypeAttr .CLAIMS_EDITED).bind fun et =>
    let audit : AuditEvent :=
      { event_type := et, actor_id := actor_id,
        artifact_version_id := some proposal.vid, artifact_type := "claims" }
    let matter' :=
      if db.matter.status = .CLAIMS_APPROVED then
        { db.matter with status := .CLAIMS_PROPOSED }
      else db.matter
    .ok ({ db with
        matter := matter',
        claim_versions := db.claim_versions ++ [proposal],
        workstream := ws',
        audit_events := db.audit_events ++ [audit],
        next_vid := db.next_vid + 1 }, proposal)

/-- Embeds `_fetch_source_version` (lines 246-255). -/
def fetch_source_version (db : Db) (version_id : Nat) :
    Except SvcErr ClaimGraphVersionRec :=
  match db.claim_versions.find? (fun v => v.vid == version_id) with
  | none => .error (.notFound "Source version not found")
  | some v => .ok v

/-- Embeds `edit_claim` (lines 337-378): fetch the source version, run the edit
computation (validation, patch, cycle check), then clone-and-save. -/
def edit_claim (db : Db) (version_id : Nat) (node_id : String)
    (patch : EditClaimRequest) (actor_id : Option Nat) :
    Except SvcErr (Db × ClaimGraphVersionRec) :=
  (fetch_source_version db version_id).bind fun source =>
    (editNodeGraph source.graph_data node_id patch).bind fun graph =>
      clone_and_save_version db graph ("Edited claim " ++ node_id) actor_id

/-- Embeds `add_claim` (lines 380-425). -/
def add_claim (db : Db) (version_id : Nat) (req : AddClaimRequest)
    (actor_id : Option Nat) : Except SvcErr (Db × ClaimGraphVersionRec) :=
  (fetch_source_version db version_id).bind fun source =>
    (addNodeGraph source.graph_data req).bind fun graph =>
      clone_and_save_version db graph "Added claim" actor_id

/-- Embeds `delete_claim` (lines 427-466). -/
def delete_claim (db : Db) (version_id : Nat) (node_id : String)
    (actor_id : Option Nat) : Except SvcErr (Db × ClaimGraphVersionRec) :=
  (fetch_source_version db version_id).bind fun source =>
    (deleteNodeGraph source.graph_data node_id).bind fun graph =>
      clone_and_save_version db graph ("Deleted claim " ++ node_id) actor_id

end DraftingService

/-- The `get_authoritative` read for the claims kind (the pattern of
src/risk/service.py lines 40-52, src/qa/service.py lines 95-107,
src/specs/service.py lines 102-114): the latest version flagged
authoritative. -/
def getAuthoritativeClaim (db : Db) : Option ClaimGraphVersionRec :=
  latestBy (db.claim_versions.filter (fun v => v.is_authoritative))
    (fun v => v.version_number)

/-! ## RiskService — src/risk/service.py -/

namespace RiskService

/-- Embeds `_get_claims_text` (lines 24-54), reduced to the version resolution (the
text formatting is irrelevant here): an explicit version id must exist for the
matter, otherwise the latest authoritative claim version is required.  Both
failures are `ValueError`s in the source; the spec's taxonomy calls them
`NotFound` and `MissingApproval`. -/
def get_claims_version (db : Db) (claim_version_id : Option Nat) :
    Except SvcErr ClaimGraphVersionRec :=
  match claim_version_id with
  | some cid =>
    match db.claim_versions.find? (fun v => v.vid == cid) with
    | some v => .ok v
    | none => .error (.notFound "Claim version not found")
  | none =>
    match getAuthoritativeClaim db with
    | some v => .ok v
    | none => .error (.missingApproval "No approved claims found")

/-- Embeds `_get_spec_text` (lines 165-194), likewise reduced to version
resolution. -/
def get_spec_version (db : Db) (spec_version_id : Option Nat) :
    Except SvcErr SpecVersionRec :=
  match spec_version_id with
  | some sid =>
    match db.spec_versions.find? (fun v => v.vid == sid) with
    | some v => .ok v
    | none => .error (.notFound "Spec version not found")
  | none =>
    match latestBy (db.spec_versions.filter (fun v => v.is_authoritative))
        (fun v => v.version_number) with
    | some v => .ok v
    | none => .error (.missingApproval "No authoritative specification found")

/-- Embeds `generate_risk_analysis` (lines 88-163), from the point where the risk
agent has returned an analysis: resolve the claim version, number and insert a
non-authoritative proposal, overwrite `matter.defensibility_score`, move the
workstream risk pointer.  No audit event is appended and `matter.status` is
never written. -/
def generate_risk_analysis (db : Db) (risk_analysis : RiskAnalysis)
    (claim_version_id : Option Nat) :
    Except SvcErr (Db × RiskAnalysisVersionRec) :=
  (get_claims_version db claim_version_id).bind fun claimV =>
    let next_version := nextVersionNumber db.risk_versions (fun v => v.version_number)
    let proposal : RiskAnalysisVersionRec :=
      { vid := db.next_vid, version_number := next_version,
        description := "AI Generated Risk Analysis",
        analysis_data := risk_analysis, is_authoritative := false,
        claim_version_id := some claimV.vid }
    let matter' :=
      { db.matter with defensibility_score := some risk_analysis.defensibility_score }
    let ws' := db.workstream.map
      (fun w => { w with active_risk_version_id := some proposal.vid })
    .ok ({ db with
        matter := matter',
        risk_versions := db.risk_versions ++ [proposal],
        workstream := ws',
        next_vid := db.next_vid + 1 }, proposal)

/-- Embeds `re_evaluate_risk_post_spec` (lines 233-311), from the point where the
re-evaluation agent has returned an analysis: resolve the authoritative claim
version and the spec version, then construct
`RiskAnalysisVersion(..., spec_version_id=resolved_spec_version_id)`.
`risk_analysis_versions` has no mapped `spec_version_id` attribute
(src/risk/models.py), so the declarative constructor raises `TypeError` and the
request rolls back: the call can never succeed. -/
def re_evaluate_risk_post_spec (db : Db) (_risk_analysis : RiskAnalysis)
    (spec_version_id : Option Nat) :
    Except SvcErr (Db × RiskAnalysisVersionRec) :=
  (get_claims_version db none).bind fun _ =>
    (get_spec_version db spec_version_id).bind fun _ =>
      .error .typeError

/-- Embeds `commit_version` (lines 313-351): flag the target authoritative, advance
`CLAIMS_APPROVED → RISK_REVIEWED`, or — when the matter is `SPEC_GENERATED` —
assign `MatterState.RISK_RE_REVIEWED`, an attribute the Python enum does not
define, raising `AttributeError`.  Moves the pointer; appends NO audit
event. -/
def commit_version (db : Db) (version_id : Nat) :
    Except SvcErr (Db × RiskAnalysisVersionRec) :=
  match db.risk_versions.find? (fun v => v.vid == version_id) with
  | none => .error (.notFound "Version not found")
  | some v =>
    let v' := { v with is_authoritative := true }
    let risk_versions' :=
      db.risk_versions.map (fun w => if w.vid == version_id then v' else w)
    let matterE : Except SvcErr Matter :=
      if db.matter.status = .CLAIMS_APPROVED then
        .ok { db.matter with status := .RISK_REVIEWED }
      else if db.matter.status = .SPEC_GENERATED then
        (pyMatterStateAttr .RISK_RE_REVIEWED).bind fun s =>
          .ok { db.matter with status := s }
      else .ok db.matter
    matterE.bind fun matter' =>
      let ws' := db.workstream.map
        (fun w => { w with active_risk_version_id := some v'.vid })
      .ok ({ db with
          matter := matter',
          risk_versions := risk_versions',
          workstream := ws' }, v')

end RiskService

/-! ## QAService — src/qa/service.py -/

namespace QAService

/-- Embeds `commit_version` (lines 269-314): reject a missing version; reject a report
whose payload has `can_export` false with the blocking-error count; then flag
the version authoritative and evaluate
`matter.status == MatterState.RISK_RE_REVIEWED` — an attribute access the
Python enum does not support, raising `AttributeError` before `db.commit()`,
so the promotion is rolled back whenever the gate passes. -/
def commit_version (db : Db) (version_id : Nat) :
    Except SvcErr (Db × QAReportVersionRec) :=
  match db.qa_versions.find? (fun v => v.vid == version_id) with
  | none => .error (.notFound "Version not found")
  | some v =>
    if !v.report_data.can_export then
      .error (.blockedByErrors v.report_data.total_errors)
    else
      let v' := { v with is_authoritative := true }
      let qa_versions' :=
        db.qa_versions.map (fun w => if w.vid == version_id then v' else w)
      (pyMatterStateAttr .RISK_RE_REVIEWED).bind fun s =>
        let matter' :=
          if db.matter.status = s then
            { db.matter with status := .QA_COMPLETE }
          else db.matter
        let ws' := db.workstream.map
          (fun w => { w with active_qa_version_id := some v'.vid })
        .ok ({ db with
            matter := matter',
            qa_versions := qa_versions',
            workstream := ws' }, v')

end QAService

/-! ## Sample data used by witnesses and counterexamples -/

/-- A two-node claim graph: an independent claim and one depending on it. -/
def g2 : ClaimGraph :=
  { nodes :=
    [{ id := "1", type := "independent", text := "A system.",
       dependencies := [], category := some "system", mirror_source := none },
     { id := "2", type := "dependent", text := "The system of claim 1.",
       dependencies := ["1"], category := some "system", mirror_source := none }] }

/-- A matter with two non-authoritative claim versions. -/
def sampleDb : Db :=
  { matter := ⟨"Sample matter", .CLAIMS_PROPOSED, none⟩,
    claim_versions :=
      [⟨1, 1, "AI Generated Proposal", g2, false⟩,
       ⟨2, 2, "Edited claim 1", g2, false⟩],
    risk_versions := [], spec_versions := [], qa_versions := [],
    workstream := some {}, audit_events := [], next_vid := 3 }

/-- A matter ready for risk work: one authoritative claim version, one
non-authoritative risk version. -/
def riskDb : Db :=
  { matter := ⟨"Risk matter", .CLAIMS_APPROVED, none⟩,
    claim_versions := [⟨1, 1, "AI Generated Proposal", g2, true⟩],
    risk_versions :=
      [⟨2, 1, "AI Generated Risk Analysis", ⟨55, "Initial assessment."⟩, false, some 1⟩],
    spec_versions := [⟨3, 1, true⟩], qa_versions := [],
    workstream := some {}, audit_events := [], next_vid := 4 }

/-- A matter with a clean QA report (no blocking errors). -/
def qaCleanDb : Db :=
  { matter := ⟨"QA matter", .SPEC_GENERATED, some 55⟩,
    claim_versions := [], risk_versions := [], spec_versions := [],
    qa_versions := [⟨7, 1, "AI Generated QA Validation", ⟨0, true⟩, false, none, none⟩],
    workstream := some {}, audit_events := [], next_vid := 8 }

/-- A matter with a QA report carrying three blocking errors. -/
def qaBlockedDb : Db :=
  { matter := ⟨"QA matter", .SPEC_GENERATED, some 55⟩,
    claim_versions := [], risk_versions := [], spec_versions := [],
    qa_versions := [⟨7, 1, "AI Generated QA Validation", ⟨3, false⟩, false, none, none⟩],
    workstream := some {}, audit_events := [], next_vid := 8 }

/-! ## C1 — the manual status-update transition table -/

/-- The membership test of `update_status` agrees with the explicit pair
list. -/
lemma validTransitions_iff_pairs : ∀ s t : MatterState,
    t ∈ validTransitions s ↔ (s, t) ∈ codeTransitionPairs := by decide

/-- C1 (corrected).  The manual status update succeeds exactly for the pairs of
the CODE's transition table — which, contrary to the spec's §4.1 table, has no
`SPEC_GENERATED → RISK_RE_REVIEWED` and no `RISK_RE_REVIEWED → QA_COMPLETE`
edge — and any other pair fails with `InvalidTransition{from, to}` leaving the
status unchanged. -/
theorem manual_transition_table (m : Matter) (t : MatterState) :
    (MatterService.update_status m t = .ok { m with status := t } ↔
      (m.status, t) ∈ codeTransitionPairs)
    ∧ ((m.status, t) ∉ codeTransitionPairs →
      MatterService.update_status m t = .error (.invalidTransition m.status t)
      ∧ afterUpdateStatus m t = m) := by
  by_cases hmem : t ∈ validTransitions m.status
  · have hok : MatterService.update_status m t = .ok { m with status := t } := by
      simp [MatterService.update_status, hmem]
    exact ⟨⟨fun _ => (validTransitions_iff_pairs m.status t).mp hmem, fun _ => hok⟩,
      fun hn => absurd ((validTransitions_iff_pairs m.status t).mp hmem) hn⟩
  · have herr : MatterService.update_status m t =
        .error (.invalidTransition m.status t) := by
      simp [MatterService.update_status, hmem]
    refine ⟨⟨fun h => ?_, fun hp =>
        absurd ((validTransitions_iff_pairs m.status t).mpr hp) hmem⟩,
      fun _ => ⟨herr, ?_⟩⟩
    · rw [herr] at h; exact absurd h (by simp)
    · unfold afterUpdateStatus; rw [herr]

/-- C1 witness: a listed pair succeeds, an unlisted pair fails and leaves the
status as it was. -/
theorem manual_transition_table_witness :
    MatterService.update_status ⟨"m", .CREATED, none⟩ .BRIEF_ANALYZED =
      .ok ⟨"m", .BRIEF_ANALYZED, none⟩ ∧
    MatterService.update_status ⟨"m", .QA_COMPLETE, none⟩ .CREATED =
      .error (.invalidTransition .QA_COMPLETE .CREATED) ∧
    afterUpdateStatus ⟨"m", .QA_COMPLETE, none⟩ .CREATED = ⟨"m", .QA_COMPLETE, none⟩ := by
  refine ⟨(manual_transition_table ⟨"m", .CREATED, none⟩ .BRIEF_ANALYZED).1.mpr
      (by decide), ?_, ?_⟩
  · exact ((manual_transition_table ⟨"m", .QA_COMPLETE, none⟩ .CREATED).2 (by decide)).1
  · exact ((manual_transition_table ⟨"m", .QA_COMPLETE, none⟩ .CREATED).2 (by decide)).2

/-- C1 counterexample: the two §4.1 rows the claim singles out are rejected by
the code's table (`RISK_RE_REVIEWED` is not even a key of the dict, nor a
member of the Python enum). -/
theorem manual_transition_missing_edges :
    MatterService.update_status ⟨"m", .SPEC_GENERATED, none⟩ .RISK_RE_REVIEWED =
      .error (.invalidTransition .SPEC_GENERATED .RISK_RE_REVIEWED) ∧
    MatterService.update_status ⟨"m", .RISK_RE_REVIEWED, none⟩ .QA_COMPLETE =
      .error (.invalidTransition .RISK_RE_REVIEWED .QA_COMPLETE) := by
  exact ⟨rfl, rfl⟩

/-! ## C2 — QA commit of an exportable report -/

lemma pyMatterStateAttr_RISK_RE_REVIEWED :
    pyMatterStateAttr .RISK_RE_REVIEWED = .error .attributeError := rfl

/-- C2 (code_bug).  Committing a QA report version whose payload has
`can_export = true` always raises: after the gate passes, the code evaluates
`matter.status == MatterState.RISK_RE_REVIEWED`, and the Python enum defines no
such member, so the request dies with `AttributeError` and nothing — not even
the `is_authoritative` flag — is persisted.  The claim (and the code's own
docstring, the DB migration, and the enum value added by af6657e265aa) says the
commit should succeed and advance the matter toward `QA_COMPLETE`. -/
theorem qa_commit_crashes (db : Db) (version_id : Nat) (v : QAReportVersionRec)
    (hfind : db.qa_versions.find? (fun w => w.vid == version_id) = some v)
    (hexp : v.report_data.can_export = true) :
    QAService.commit_version db version_id = .error .attributeError := by
  unfold QAService.commit_version
  rw [hfind]
  dsimp only
  rw [hexp]
  rfl

/-- C2 witness: the crash on a concrete clean report. -/
theorem qa_commit_crashes_witness :
    QAService.commit_version qaCleanDb 7 = .error .attributeError :=
  qa_commit_crashes qaCleanDb 7 _ rfl rfl

/-! ## C6 — QA commit blocked by errors -/

/-- C6 (confirmed).  Committing a QA report version whose payload has
`can_export = false` fails with `BlockedByErrors{error_count}`; the gate fires
before the `is_authoritative` assignment, so the version stays
non-authoritative (in the embedding a failed request leaves the `Db`
unchanged). -/
theorem qa_commit_blocked (db : Db) (version_id : Nat) (v : QAReportVersionRec)
    (hfind : db.qa_versions.find? (fun w => w.vid == version_id) = some v)
    (hexp : v.report_data.can_export = false) :
    QAService.commit_version db version_id =
      .error (.blockedByErrors v.report_data.total_errors) := by
  unfold QAService.commit_version
  rw [hfind]
  dsimp only
  rw [hexp]
  rfl

/-- C6 witness: a report with three blocking errors is rejected with that
count, and its stored flag is (still) false. -/
theorem qa_commit_blocked_witness :
    QAService.commit_version qaBlockedDb 7 = .error (.blockedByErrors 3) ∧
    ∀ w ∈ qaBlockedDb.qa_versions, w.is_authoritative = false :=
  ⟨qa_commit_blocked qaBlockedDb 7 _ rfl rfl, by decide⟩

/-! ## `latestBy` and commit list lemmas (shared by C3 and C8) -/

lemma foldl_pickLatest_keep {α : Type} (f : α → Nat) (l : List α) (a : α)
    (h : ∀ y ∈ l, ¬f a < f y) :
    l.foldl (pickLatest f) (some a) = some a := by
  induction l with
  | nil => rfl
  | cons y rest ih =>
    simp only [List.foldl_cons, pickLatest]
    rw [if_neg (h y (List.mem_cons_self _ _))]
    exact ih (fun z hz => h z (List.mem_cons_of_mem _ hz))

lemma foldl_pickLatest_max {α : Type} (f : α → Nat) :
    ∀ (l : List α) (acc : Option α) (x : α), x ∈ l →
      (∀ y ∈ l, y ≠ x → f y < f x) →
      (∀ b, acc = some b → f b < f x ∨ b = x) →
      l.foldl (pickLatest f) acc = some x := by
  intro l
  induction l with
  | nil => intro acc x hx; exact absurd hx (List.not_mem_nil x)
  | cons y rest ih =>
    intro acc x hx hmax hacc
    by_cases hyx : y = x
    · subst hyx
      have hacc' : pickLatest f acc y = some y := by
        cases acc with
        | none => rfl
        | some b =>
          rcases hacc b rfl with hlt | rfl
          · simp [pickLatest, hlt]
          · simp [pickLatest]
      rw [List.foldl_cons, hacc']
      by_cases hyr : y ∈ rest
      · exact ih (some y) y hyr
          (fun z hz => hmax z (List.mem_cons_of_mem _ hz))
          (fun b hb => Or.inr (Option.some.inj hb).symm)
      · exact foldl_pickLatest_keep f rest y (fun z hz hlt =>
          absurd hlt (not_lt_of_gt (hmax z (List.mem_cons_of_mem _ hz)
            (fun he => hyr (he ▸ hz)))))
    · have hfy : f y < f x := hmax y (List.mem_cons_self _ _) hyx
      have hxr : x ∈ rest := (List.mem_cons.mp hx).resolve_left
        (fun he => hyx he.symm)
      rw [List.foldl_cons]
      refine ih (pickLatest f acc y) x hxr
        (fun z hz => hmax z (List.mem_cons_of_mem _ hz)) ?_
      intro b hb
      cases acc with
      | none =>
        simp only [pickLatest] at hb
        exact Or.inl ((Option.some.inj hb) ▸ hfy)
      | some c =>
        simp only [pickLatest] at hb
        by_cases hcy : f c < f y
        · rw [if_pos hcy] at hb
          exact Or.inl ((Option.some.inj hb) ▸ hfy)
        · rw [if_neg hcy] at hb
          exact (Option.some.inj hb) ▸ hacc c rfl

/-- The function `latestBy` returns the strict maximum when there is one. -/
lemma latestBy_eq_of_max {α : Type} (f : α → Nat) (l : List α) (x : α)
    (hx : x ∈ l) (hmax : ∀ y ∈ l, y ≠ x → f y < f x) :
    latestBy l f = some x :=
  foldl_pickLatest_max f l none x hx hmax (fun b hb => by cases hb)

lemma map_commit_of_no_match (l : List ClaimGraphVersionRec) (version_id : Nat)
    (v' : ClaimGraphVersionRec) (h : ∀ w ∈ l, (w.vid == version_id) = false) :
    l.map (fun w => if w.vid == version_id then v' else w) = l := by
  induction l with
  | nil => rfl
  | cons w rest ih =>
    simp only [List.map_cons]
    rw [if_neg (by simp [h w (List.mem_cons_self _ _)])]
    rw [ih (fun z hz => h z (List.mem_cons_of_mem _ hz))]

lemma filter_auth_nil (l : List ClaimGraphVersionRec)
    (h : ∀ w ∈ l, w.is_authoritative = false) :
    l.filter (fun w => w.is_authoritative) = [] := by
  induction l with
  | nil => rfl
  | cons w rest ih =>
    rw [List.filter_cons_of_neg (by simp [h w (List.mem_cons_self _ _)])]
    exact ih (fun z hz => h z (List.mem_cons_of_mem _ hz))

/-- After replacing the committed row in an all-non-authoritative list, the
authoritative rows are exactly the committed one. -/
lemma commit_filter_single :
    ∀ (l : List ClaimGraphVersionRec) (version_id : Nat) (v : ClaimGraphVersionRec),
    l.find? (fun w => w.vid == version_id) = some v →
    (l.map (fun w => w.vid)).Nodup →
    (∀ w ∈ l, w.is_authoritative = false) →
    (l.map (fun w => if w.vid == version_id then
        { v with is_authoritative := true } else w)).filter
      (fun w => w.is_authoritative) = [{ v with is_authoritative := true }] := by
  intro l
  induction l with
  | nil => intro version_id v hfind _ _; cases hfind
  | cons w rest ih =>
    intro version_id v hfind hnodup hnone
    rw [List.map_cons] at hnodup
    rcases hw : (w.vid == version_id) with - | -
    · rw [List.find?_cons_of_neg _ (by simp [hw])] at hfind
      simp only [List.map_cons]
      rw [if_neg (by simp [hw])]
      rw [List.filter_cons_of_neg (by simp [hnone w (List.mem_cons_self _ _)])]
      exact ih version_id v hfind (List.nodup_cons.mp hnodup).2
        (fun z hz => hnone z (List.mem_cons_of_mem _ hz))
    · rw [List.find?_cons_of_pos _ (by simp [hw])] at hfind
      obtain rfl : w = v := Option.some.inj hfind
      simp only [List.map_cons]
      rw [if_pos (by simp [hw])]
      have hvid : w.vid = version_id := by simpa using hw
      have hrest : ∀ z ∈ rest, (z.vid == version_id) = false := by
        intro z hz
        have hnotin : w.vid ∉ rest.map (fun u => u.vid) :=
          (List.nodup_cons.mp hnodup).1
        have hne : z.vid ≠ w.vid :=
          fun he => hnotin (he ▸ List.mem_map_of_mem _ hz)
        simp [hvid ▸ hne]
      rw [map_commit_of_no_match rest version_id _ hrest]
      rw [List.filter_cons_of_pos (by simp)]
      rw [filter_auth_nil rest (fun z hz => hnone z (List.mem_cons_of_mem _ hz))]

/-- Unfolding a successful claims commit: the returned row is the flagged
target and the stored list is the pointwise replacement. -/
lemma commit_version_ok (db : Db) (version_id : Nat) (v : ClaimGraphVersionRec)
    (hfind : db.claim_versions.find? (fun w => w.vid == version_id) = some v) :
    ∃ db', DraftingService.commit_version db version_id =
        .ok (db', { v with is_authoritative := true }) ∧
      db'.claim_versions = db.claim_versions.map
        (fun w => if w.vid == version_id then
          { v with is_authoritative := true } else w) := by
  unfold DraftingService.commit_version
  rw [hfind]
  exact ⟨_, rfl, rfl⟩

/-! ## C3 — at most one authoritative version per (matter, kind) -/

/-- C3 counterexample: committing claim version 1 and then claim version 2 of
the same matter leaves BOTH rows flagged authoritative — commit never demotes
the siblings. -/
theorem double_commit_two_authoritative :
    ∃ p₁ p₂,
      DraftingService.commit_version sampleDb 1 = .ok p₁ ∧
      DraftingService.commit_version p₁.1 2 = .ok p₂ ∧
      p₁.2.vid ≠ p₂.2.vid ∧
      (p₂.1.claim_versions.filter (fun v => v.is_authoritative)).length = 2 :=
  ⟨_, _, rfl, rfl, by decide, by decide⟩

/-- C3 (corrected).  The invariant survives a SINGLE commit: from a state where
no claim version is authoritative, committing one version makes it the unique
authoritative row.  (The original claim fails for a second commit of a
different version, see the counterexample: the code sets the flag without
demoting siblings.) -/
theorem single_commit_unique_authoritative (db : Db) (version_id : Nat)
    (v : ClaimGraphVersionRec)
    (hfind : db.claim_versions.find? (fun w => w.vid == version_id) = some v)
    (hnodup : (db.claim_versions.map (fun w => w.vid)).Nodup)
    (hnone : ∀ w ∈ db.claim_versions, w.is_authoritative = false) :
    ∃ db', DraftingService.commit_version db version_id =
        .ok (db', { v with is_authoritative := true }) ∧
      db'.claim_versions.filter (fun w => w.is_authoritative) =
        [{ v with is_authoritative := true }] := by
  obtain ⟨db', hok, hcv⟩ := commit_version_ok db version_id v hfind
  refine ⟨db', hok, ?_⟩
  rw [hcv]
  exact commit_filter_single db.claim_versions version_id v hfind hnodup hnone

/-- C3 witness: a single commit of version 1 of the sample matter. -/
theorem single_commit_unique_authoritative_witness :
    ∃ db', DraftingService.commit_version sampleDb 1 =
        .ok (db', ⟨1, 1, "AI Generated Proposal", g2, true⟩) ∧
      db'.claim_versions.filter (fun w => w.is_authoritative) =
        [⟨1, 1, "AI Generated Proposal", g2, true⟩] :=
  single_commit_unique_authoritative sampleDb 1
    ⟨1, 1, "AI Generated Proposal", g2, false⟩ rfl (by decide) (by decide)

/-! ## C8 — commit / get_authoritative round trip -/

/-- C8 counterexample: commit version 2 (the latest), then commit version 1;
`get_authoritative` now returns version 2, not the just-committed version 1,
because it reads the HIGHEST-numbered authoritative row and commit never
demotes. -/
theorem roundtrip_after_double_commit_fails :
    ∃ p₁ p₂,
      DraftingService.commit_version sampleDb 2 = .ok p₁ ∧
      DraftingService.commit_version p₁.1 1 = .ok p₂ ∧
      p₂.2.vid = 1 ∧
      (getAuthoritativeClaim p₂.1).map (fun w => w.vid) = some 2 ∧
      getAuthoritativeClaim p₂.1 ≠ some p₂.2 :=
  ⟨_, _, rfl, rfl, rfl, by decide, by decide⟩

/-- C8 (corrected).  The round trip holds when no OTHER authoritative version
outranks the committed one: if every authoritative row's `version_number` is at
most the committed version's (distinct version numbers per the schema's
uniqueness constraint), `get_authoritative` right after `commit` returns
exactly the committed version — equal as a full row, hence by id and payload. -/
theorem commit_get_authoritative_roundtrip (db : Db) (version_id : Nat)
    (v : ClaimGraphVersionRec)
    (hfind : db.claim_versions.find? (fun w => w.vid == version_id) = some v)
    (hnodupVn : (db.claim_versions.map (fun w => w.version_number)).Nodup)
    (hmax : ∀ w ∈ db.claim_versions, w.is_authoritative = true →
      w.version_number ≤ v.version_number) :
    ∃ db', DraftingService.commit_version db version_id =
        .ok (db', { v with is_authoritative := true }) ∧
      getAuthoritativeClaim db' = some { v with is_authoritative := true } := by
  have hvv : (v.vid == version_id) = true := by
    simpa using List.find?_some hfind
  have hvmem : v ∈ db.claim_versions := List.mem_of_find?_eq_some hfind
  obtain ⟨db', hok, hcv⟩ := commit_version_ok db version_id v hfind
  refine ⟨db', hok, ?_⟩
  unfold getAuthoritativeClaim
  rw [hcv]
  apply latestBy_eq_of_max
  · apply List.mem_filter.mpr
    refine ⟨List.mem_map.mpr ⟨v, hvmem, ?_⟩, by simp⟩
    rw [if_pos (by simpa using hvv)]
  · intro y hy hne
    obtain ⟨hymem, hyauth⟩ := List.mem_filter.mp hy
    obtain ⟨w, hwmem, hwy⟩ := List.mem_map.mp hymem
    rcases hw : (w.vid == version_id) with - | -
    · rw [if_neg (by simp [hw])] at hwy
      subst hwy
      have hwauth : w.is_authoritative = true := by simpa using hyauth
      have hle : w.version_number ≤ v.version_number := hmax w hwmem hwauth
      rcases Nat.lt_or_ge w.version_number v.version_number with hlt | hge
      · exact hlt
      · have heq : w.version_number = v.version_number := le_antisymm hle hge
        have hwv : w = v := List.inj_on_of_nodup_map hnodupVn hwmem hvmem heq
        subst hwv
        exact absurd hvv (by simp [hw])
    · rw [if_pos (by simp [hw])] at hwy
      exact absurd hwy.symm hne

/-- C8 witness: committing the latest version of the sample matter and reading
it back. -/
theorem commit_get_authoritative_roundtrip_witness :
    ∃ db', DraftingService.commit_version sampleDb 2 =
        .ok (db', ⟨2, 2, "Edited claim 1", g2, true⟩) ∧
      getAuthoritativeClaim db' = some ⟨2, 2, "Edited claim 1", g2, true⟩ :=
  commit_get_authoritative_roundtrip sampleDb 2
    ⟨2, 2, "Edited claim 1", g2, false⟩ rfl (by decide) (by decide)

/-! ## C5 — delete/renumber: supporting lemmas -/

/-- With pairwise-distinct keys, a dict lookup (last binding wins, i.e. search
the reversed list) agrees with a first-match search. -/
lemma find?_reverse_of_nodup_keys :
    ∀ (l : List (String × String)) (d : String),
      (l.map (fun q => q.1)).Nodup →
      l.reverse.find? (fun q => q.1 == d) = l.find? (fun q => q.1 == d) := by
  intro l
  induction l with
  | nil => intro d _; rfl
  | cons p ps ih =>
    intro d hnd
    rw [List.map_cons] at hnd
    obtain ⟨hnotin, hnd'⟩ := List.nodup_cons.mp hnd
    rw [List.reverse_cons, List.find?_append]
    by_cases hp : p.1 = d
    · have hnone : ps.reverse.find? (fun q => q.1 == d) = none := by
        rw [List.find?_eq_none]
        intro q hq
        rw [List.mem_reverse] at hq
        have hqk : q.1 ∈ ps.map (fun q => q.1) := List.mem_map_of_mem _ hq
        simp only [beq_iff_eq]
        exact fun he => hnotin (by rw [hp, ← he]; exact hqk)
      rw [hnone, List.find?_cons_of_pos _ (by simp [hp])]
      rw [List.find?_cons_of_pos _ (by simp [hp])]
      rfl
    · have hsingle : List.find? (fun q => q.1 == d) [p] = none := by
        rw [List.find?_cons_of_neg _ (by simp [hp])]
        rfl
      rw [hsingle, Option.or_none, ih d hnd',
        List.find?_cons_of_neg _ (by simp [hp])]

/-- First-match search through the renumber pairs, positionally. -/
lemma find?_renumber_pairs :
    ∀ (l : List ClaimNode) (st : Nat) (d : String),
      (((l.enumFrom st).map (fun q => (q.2.id, toString (q.1 + 1)))).find?
          (fun q => q.1 == d)).map (fun q => q.2) =
        (posLookup (l.map (fun n => n.id)) d).map (fun i => toString (st + i + 1)) := by
  intro l
  induction l with
  | nil => intro st d; rfl
  | cons n rest ih =>
    intro st d
    rw [List.enumFrom_cons, List.map_cons]
    by_cases hd : n.id = d
    · rw [List.find?_cons_of_pos _ (by simp [hd])]
      simp only [List.map_cons, posLookup, if_pos hd, Option.map_some']
    · rw [List.find?_cons_of_neg _ (by simp [hd])]
      rw [ih (st + 1) d]
      simp only [List.map_cons, posLookup, if_neg hd]
      rw [Option.map_map]
      apply congrFun
      apply congrArg
      funext i
      simp only [Function.comp_apply]
      congr 1
      omega

/-- The keys of the renumber pairs are the remaining node ids. -/
lemma renumber_pairs_keys (remaining : List ClaimNode) :
    (renumberPairs remaining).map (fun q => q.1) =
      remaining.map (fun n => n.id) := by
  unfold renumberPairs
  rw [List.map_map]
  have h1 : (fun q => q.1) ∘ (fun q : Nat × ClaimNode => (q.2.id, toString (q.1 + 1))) =
      (fun n => n.id) ∘ Prod.snd := rfl
  rw [h1, ← List.map_map, List.enum_eq_enumFrom, List.enumFrom_map_snd]

/-- The code's dict lookup through `renumber_map` IS the spec's positional
old→new id map, when node ids are pairwise distinct. -/
lemma dictLookup_renumber (g : ClaimGraph) (node_id : String)
    (hnd : ((g.nodes.filter (fun n => n.id != node_id)).map (fun n => n.id)).Nodup) :
    dictLookup (renumberPairs (g.nodes.filter (fun n => n.id != node_id))) =
      specRenum g node_id := by
  funext d
  set remaining := g.nodes.filter (fun n => n.id != node_id) with hrem
  unfold dictLookup
  rw [find?_reverse_of_nodup_keys _ d (by rw [renumber_pairs_keys]; exact hnd)]
  unfold renumberPairs
  rw [List.enum_eq_enumFrom, find?_renumber_pairs remaining 0 d]
  unfold specRenum
  rw [← hrem]
  apply congrFun
  apply congrArg
  funext i
  congr 1
  omega

/-- A sublist of distinct ids: filtering preserves `Nodup`. -/
lemma nodup_filter_ids (g : ClaimGraph) (node_id : String)
    (hnd : (g.nodes.map (fun n => n.id)).Nodup) :
    ((g.nodes.filter (fun n => n.id != node_id)).map (fun n => n.id)).Nodup := by
  have hsub : (g.nodes.filter (fun n => n.id != node_id)).Sublist g.nodes :=
    List.filter_sublist _
  exact (hsub.map (fun n => n.id)).nodup hnd

lemma filter_ne_length :
    ∀ (l : List ClaimNode) (k : String), k ∈ l.map (fun n => n.id) →
      (l.map (fun n => n.id)).Nodup →
      (l.filter (fun n => n.id != k)).length = l.length - 1 := by
  intro l
  induction l with
  | nil => intro k hk; exact absurd hk (List.not_mem_nil k)
  | cons n rest ih =>
    intro k hk hnd
    rw [List.map_cons] at hnd hk
    obtain ⟨hnotin, hnd'⟩ := List.nodup_cons.mp hnd
    by_cases hn : n.id = k
    · rw [List.filter_cons_of_neg (by simp [hn])]
      have hkeep : rest.filter (fun n => n.id != k) = rest := by
        rw [List.filter_eq_self]
        intro x hx
        simp only [bne_iff_ne, ne_eq]
        exact fun he => hnotin (by rw [hn, ← he]; exact List.mem_map_of_mem _ hx)
      rw [hkeep]
      simp
    · rw [List.filter_cons_of_pos (by simp [hn])]
      have hkr : k ∈ rest.map (fun n => n.id) :=
        (List.mem_cons.mp hk).resolve_left (fun he => hn he.symm)
      have hpos : 0 < rest.length := by
        obtain ⟨x, hx, -⟩ := List.mem_map.mp hkr
        exact List.length_pos.mpr (List.ne_nil_of_mem hx)
      simp only [List.length_cons]
      rw [ih k hkr hnd']
      omega

lemma posLookup_none (l : List String) (d : String) (h : ∀ x ∈ l, x ≠ d) :
    posLookup l d = none := by
  induction l with
  | nil => rfl
  | cons x rest ih =>
    simp only [posLookup, if_neg (h x (List.mem_cons_self _ _))]
    rw [ih (fun z hz => h z (List.mem_cons_of_mem _ hz))]
    rfl

lemma forall2_enum_map (R : ClaimNode → ClaimNode → Prop)
    (F : Nat × ClaimNode → ClaimNode) (hF : ∀ i n, R n (F (i, n))) :
    ∀ (l : List ClaimNode) (st : Nat),
      List.Forall₂ R l ((l.enumFrom st).map F) := by
  intro l
  induction l with
  | nil => intro st; exact List.Forall₂.nil
  | cons n rest ih =>
    intro st
    rw [List.enumFrom_cons, List.map_cons]
    exact List.Forall₂.cons (hF st n) (ih (st + 1))

/-- Any claims-editor save path dies at the `AuditEventType.CLAIMS_EDITED`
attribute access: the Python enum defines no such member. -/
lemma clone_and_save_version_attrError (db : Db) (graph : ClaimGraph)
    (description : String) (actor_id : Option Nat) :
    DraftingService.clone_and_save_version db graph description actor_id =
      .error .attributeError := rfl

/-- C5 (code_bug).  The renumbering of `delete_claim` computes exactly what the
claim describes — N-1 nodes, ids `"1"..."N-1"` in prior order, dependencies
rewritten through the positional old→new map with dropped references to the
deleted node, `mirror_source` rewritten or nulled — but the service then
appends its audit event under the undefined `AuditEventType.CLAIMS_EDITED`
member, raising `AttributeError`, so no version is ever produced. -/
theorem delete_claim_renumbers (g : ClaimGraph) (k : String)
    (hmem : k ∈ g.nodes.map (fun n => n.id))
    (hnodup : (g.nodes.map (fun n => n.id)).Nodup) :
    ∃ g', deleteNodeGraph g k = .ok g' ∧
      g'.nodes.length = g.nodes.length - 1 ∧
      g'.nodes.map (fun n => n.id) =
        (List.range (g.nodes.length - 1)).map (fun i => toString (i + 1)) ∧
      specRenum g k k = none ∧
      List.Forall₂ (fun old new =>
          new.text = old.text ∧ new.type = old.type ∧
          new.category = old.category ∧
          new.dependencies = old.dependencies.filterMap (specRenum g k) ∧
          new.mirror_source = old.mirror_source.bind (specRenum g k))
        (g.nodes.filter (fun n => n.id != k)) g'.nodes ∧
      (∀ (db : Db) (version_id : Nat) (src : ClaimGraphVersionRec)
          (actor_id : Option Nat),
        db.claim_versions.find? (fun v => v.vid == version_id) = some src →
        src.graph_data = g →
        DraftingService.delete_claim db version_id k actor_id =
          .error .attributeError) := by
  have hany : g.nodes.any (fun n => n.id == k) = true := by
    obtain ⟨n, hn, hid⟩ := List.mem_map.mp hmem
    exact List.any_eq_true.mpr ⟨n, hn, by simp [hid]⟩
  have hdel : deleteNodeGraph g k = .ok
      { nodes := (g.nodes.filter (fun n => n.id != k)).enum.map (fun q =>
        { q.2 with
          id := toString (q.1 + 1)
          dependencies := q.2.dependencies.filterMap
            (dictLookup (renumberPairs (g.nodes.filter (fun n => n.id != k))))
          mirror_source := q.2.mirror_source.bind
            (dictLookup (renumberPairs (g.nodes.filter (fun n => n.id != k)))) }) } := by
    unfold deleteNodeGraph
    rw [hany]
    rfl
  have hndrem := nodup_filter_ids g k hnodup
  have hfun := dictLookup_renumber g k hndrem
  have hlen := filter_ne_length g.nodes k hmem hnodup
  refine ⟨_, hdel, ?_, ?_, ?_, ?_, ?_⟩
  · simp only [List.length_map, List.enum_length]
    exact hlen
  · rw [List.map_map]
    have hcomp : ((fun n : ClaimNode => n.id) ∘ (fun q : Nat × ClaimNode =>
        { q.2 with
          id := toString (q.1 + 1)
          dependencies := q.2.dependencies.filterMap
            (dictLookup (renumberPairs (g.nodes.filter (fun n => n.id != k))))
          mirror_source := q.2.mirror_source.bind
            (dictLookup (renumberPairs (g.nodes.filter (fun n => n.id != k)))) })) =
        ((fun i => toString (i + 1)) ∘ Prod.fst) := rfl
    rw [hcomp, ← List.map_map, List.enum_eq_enumFrom, List.enumFrom_map_fst,
      ← List.range_eq_range', hlen]
  · unfold specRenum
    rw [posLookup_none _ _ ?_]
    · rfl
    · intro x hx
      obtain ⟨n, hn, rfl⟩ := List.mem_map.mp hx
      have := List.of_mem_filter hn
      simpa using this
  · rw [List.enum_eq_enumFrom]
    apply forall2_enum_map
    intro i n
    exact ⟨rfl, rfl, rfl, by rw [hfun], by rw [hfun]⟩
  · intro db version_id src actor_id hfind hsrc
    unfold DraftingService.delete_claim DraftingService.fetch_source_version
    rw [hfind]
    show (deleteNodeGraph src.graph_data k).bind
      (fun graph => DraftingService.clone_and_save_version db graph
        ("Deleted claim " ++ k) actor_id) = Except.error SvcErr.attributeError
    rw [hsrc, hdel]
    rfl

/-- A three-node claim graph with a mirror reference, for the C5 witness. -/
def g3 : ClaimGraph :=
  { nodes :=
    [⟨"1", "independent", "A method.", [], some "method", none⟩,
     ⟨"2", "dependent", "The method of claim 1.", ["1"], some "method", none⟩,
     ⟨"3", "dependent", "The method of claim 2.", ["2"], some "method", some "1"⟩] }

/-- C5 witness: deleting node `"1"` of the three-node sample graph. -/
theorem delete_claim_renumbers_witness :
    ∃ g', deleteNodeGraph g3 "1" = .ok g' ∧
      g'.nodes.length = g3.nodes.length - 1 ∧
      g'.nodes.map (fun n => n.id) =
        (List.range (g3.nodes.length - 1)).map (fun i => toString (i + 1)) ∧
      specRenum g3 "1" "1" = none ∧
      List.Forall₂ (fun old new =>
          new.text = old.text ∧ new.type = old.type ∧
          new.category = old.category ∧
          new.dependencies = old.dependencies.filterMap (specRenum g3 "1") ∧
          new.mirror_source = old.mirror_source.bind (specRenum g3 "1"))
        (g3.nodes.filter (fun n => n.id != "1")) g'.nodes ∧
      (∀ (db : Db) (version_id : Nat) (src : ClaimGraphVersionRec)
          (actor_id : Option Nat),
        db.claim_versions.find? (fun v => v.vid == version_id) = some src →
        src.graph_data = g3 →
        DraftingService.delete_claim db version_id "1" actor_id =
          .error .attributeError) :=
  delete_claim_renumbers g3 "1" (by decide) (by decide)

@[simp] lemma except_bind_ok {ε α β : Type} (a : α) (f : α → Except ε β) :
    (Except.ok a : Except ε α).bind f = f a := rfl

@[simp] lemma except_bind_error {ε α β : Type} (e : ε) (f : α → Except ε β) :
    (Except.error e : Except ε α).bind f = .error e := rfl

lemma except_bind_eq_ok {ε α β : Type} {e : Except ε α} {f : α → Except ε β}
    {b : β} (h : e.bind f = .ok b) : ∃ a, e = .ok a ∧ f a = .ok b := by
  cases e with
  | error e => simp at h
  | ok a => exact ⟨a, rfl, h⟩

/-! ## C4 — audit events per operation and the closed event-type set -/

/-- C4 (code_bug).  The spec's closed set has sixteen event types; the Python
enum defines only fourteen — `CLAIMS_EDITED` and `SPEC_EDITED` are missing even
though the drafting and spec edit paths reference them, so every claim
edit/add/delete dies with `AttributeError`.  Claims generation does append
exactly one `CLAIMS_GENERATED` event, but risk generation and risk commit
append no audit event at all. -/
theorem audit_event_gaps :
    pyAuditEventTypeMembers.length = 14 ∧
    AuditEventType.CLAIMS_EDITED ∉ pyAuditEventTypeMembers ∧
    AuditEventType.SPEC_EDITED ∉ pyAuditEventTypeMembers ∧
    (∀ (db : Db) (cg : ClaimGraph),
      (DraftingService.generate_claims db cg).1.audit_events =
        db.audit_events ++
          [{ event_type := .CLAIMS_GENERATED, actor_id := none,
             artifact_version_id := some db.next_vid, artifact_type := "claims" }]) ∧
    (∃ p, RiskService.generate_risk_analysis riskDb ⟨70, "Improved."⟩ none = .ok p ∧
      p.1.audit_events = riskDb.audit_events) ∧
    (∃ p, RiskService.commit_version riskDb 2 = .ok p ∧
      p.1.audit_events = riskDb.audit_events) ∧
    DraftingService.delete_claim sampleDb 1 "1" none = .error .attributeError ∧
    DraftingService.edit_claim sampleDb 1 "1" { text := some "Amended." } none =
      .error .attributeError :=
  ⟨rfl, by decide, by decide, fun _ _ => rfl, ⟨_, rfl, rfl⟩, ⟨_, rfl, rfl⟩, rfl, rfl⟩

/-! ## C7 — a cycle-introducing edit is rejected -/

/-- C7 (confirmed).  An `edit_claim` whose patch makes the dependency graph
cyclic — with the target node present, a non-empty patch, and dependencies that
pass the existence/self checks — fails with `CircularDependency`; the failure
happens before `_clone_and_save_version`, so no new version is persisted and
the stored source version is untouched (a failed request leaves the `Db`
unchanged in the embedding). -/
theorem edit_cycle_rejected (db : Db) (version_id : Nat)
    (src : ClaimGraphVersionRec) (node_id : String) (p : EditClaimRequest)
    (actor_id : Option Nat)
    (hfind : db.claim_versions.find? (fun v => v.vid == version_id) = some src)
    (hnode : (src.graph_data.nodes.find? (fun n => n.id == node_id)).isSome)
    (hne : p.isEmpty = false)
    (hdeps : ((match p.dependencies with
      | some deps => validateEditDeps (src.graph_data.nodes.map (fun n => n.id))
          node_id deps
      | none => .ok ()) : Except SvcErr Unit) = .ok ())
    (hcyc : HasCycle (patchedNodes src.graph_data node_id p)) :
    DraftingService.edit_claim db version_id node_id p actor_id =
      .error .circularDependency := by
  have hedit : editNodeGraph src.graph_data node_id p = .error .circularDependency := by
    obtain ⟨n, hn⟩ := Option.isSome_iff_exists.mp hnode
    unfold editNodeGraph
    rw [hn]
    rw [if_neg (by simp [hne])]
    dsimp only
    rw [hdeps, except_bind_ok, checkCircular_cycle_error _ hcyc, except_bind_error]
  unfold DraftingService.edit_claim DraftingService.fetch_source_version
  rw [hfind, except_bind_ok, hedit, except_bind_error]

/-- C7 witness: editing node `"1"` of the sample two-node graph to depend on
its own dependent (`"2"`) creates the cycle 1 → 2 → 1 and is rejected. -/
theorem edit_cycle_rejected_witness :
    DraftingService.edit_claim sampleDb 1 "1"
      { dependencies := some ["2"] } none = .error .circularDependency :=
  edit_cycle_rejected sampleDb 1 ⟨1, 1, "AI Generated Proposal", g2, false⟩ "1"
    { dependencies := some ["2"] } none rfl (by decide) rfl rfl
    ⟨"1", Relation.TransGen.head
      (b := "2")
      (by decide :
        ("2" : String) ∈ adjOf (patchedNodes g2 "1" { dependencies := some ["2"] }) "1")
      (Relation.TransGen.single
        (by decide :
          ("1" : String) ∈ adjOf (patchedNodes g2 "1" { dependencies := some ["2"] }) "2"))⟩

/-! ## C9 — cycle detection after every structural change -/

/-- A graph whose first two nodes form a dependency cycle. -/
def cyclicG : ClaimGraph :=
  { nodes :=
    [⟨"1", "dependent", "First.", ["2"], none, none⟩,
     ⟨"2", "dependent", "Second.", ["1"], none, none⟩,
     ⟨"3", "independent", "Third.", [], none, none⟩] }

/-- C9 counterexample: `delete_claim` runs NO cycle detection — deleting the
unrelated node `"3"` of a graph whose nodes 1 and 2 form a cycle succeeds and
returns a graph still containing the cycle. -/
theorem delete_skips_cycle_check :
    ∃ g', deleteNodeGraph cyclicG "3" = .ok g' ∧ HasCycle g'.nodes := by
  refine ⟨_, rfl, "1", Relation.TransGen.head (b := "2") ?_
    (Relation.TransGen.single ?_)⟩
  · show ("2" : String) ∈ adjOf _ "1"
    decide
  · show ("1" : String) ∈ adjOf _ "2"
    decide

/-- C9 (corrected).  `edit_node` and `add_node` do run full-graph cycle
detection after the change, so every graph they successfully compute is acyclic
— even from a source whose graph already contains a cycle (they would raise on
it).  `delete_node` runs no such check, and a pre-existing cycle survives it
(see the counterexample). -/
theorem editor_outputs_acyclic :
    (∀ (g : ClaimGraph) (node_id : String) (p : EditClaimRequest) (g' : ClaimGraph),
      editNodeGraph g node_id p = .ok g' → ¬HasCycle g'.nodes) ∧
    (∀ (g : ClaimGraph) (req : AddClaimRequest) (g' : ClaimGraph),
      addNodeGraph g req = .ok g' → ¬HasCycle g'.nodes) := by
  constructor
  · intro g node_id p g' hok
    unfold editNodeGraph at hok
    rcases hfind : g.nodes.find? (fun n => n.id == node_id) with - | n <;>
      rw [hfind] at hok
    · exact absurd hok (by simp)
    · by_cases he : p.isEmpty = true
      · rw [if_pos he] at hok
        exact absurd hok (by simp)
      · rw [if_neg he] at hok
        dsimp only at hok
        obtain ⟨-, -, hok⟩ := except_bind_eq_ok hok
        obtain ⟨u, hchk, hok⟩ := except_bind_eq_ok hok
        obtain rfl : ({ nodes := patchedNodes g node_id p } : ClaimGraph) = g' :=
          Except.ok.inj hok
        cases u
        exact checkCircular_ok_no_cycle _ hchk
  · intro g req g' hok
    unfold addNodeGraph at hok
    obtain ⟨-, -, hok⟩ := except_bind_eq_ok hok
    by_cases hd : (req.type == "dependent" && req.dependencies.isEmpty) = true
    · rw [if_pos hd] at hok
      exact absurd hok (by simp)
    · rw [if_neg hd] at hok
      dsimp only at hok
      obtain ⟨u, hchk, hok⟩ := except_bind_eq_ok hok
      obtain rfl : ({ nodes := g.nodes ++
          [{ id := toString (maxIntId g.nodes + 1), type := req.type,
             text := req.text, dependencies := req.dependencies,
             category := req.category, mirror_source := none }] } : ClaimGraph) = g' :=
        Except.ok.inj hok
      cases u
      exact checkCircular_ok_no_cycle _ hchk

/-- C9 witness: a successful text-only edit of the sample graph yields an
acyclic graph. -/
theorem editor_outputs_acyclic_witness :
    ¬HasCycle (ClaimGraph.nodes { nodes := patchedNodes g2 "1" { text := some "Amended." } }) :=
  editor_outputs_acyclic.1 g2 "1" { text := some "Amended." }
    { nodes := patchedNodes g2 "1" { text := some "Amended." } } rfl

/-! ## C10 — risk generation side effects -/

/-- C10 (code_bug).  A successful `generate_risk_analysis` overwrites
`matter.defensibility_score` with the fresh score while the new version is
still non-authoritative, and never touches `matter.status`.  But
`re_evaluate_risk_post_spec` can NEVER succeed: it passes `spec_version_id=` to
the `RiskAnalysisVersion` constructor, and src/risk/models.py declares no such
attribute, so the declarative constructor raises `TypeError` (the migration and
the response schema expect the column — the model was not updated). -/
theorem risk_generation_frame :
    (∀ (db : Db) (a : RiskAnalysis) (cvid : Option Nat)
        (p : Db × RiskAnalysisVersionRec),
      RiskService.generate_risk_analysis db a cvid = .ok p →
      p.1.matter.status = db.matter.status ∧
      p.1.matter.defensibility_score = some a.defensibility_score ∧
      p.2.is_authoritative = false ∧
      p.1.risk_versions = db.risk_versions ++ [p.2]) ∧
    (∀ (db : Db) (a : RiskAnalysis) (svid : Option Nat)
        (p : Db × RiskAnalysisVersionRec),
      RiskService.re_evaluate_risk_post_spec db a svid ≠ .ok p) := by
  constructor
  · intro db a cvid p hok
    unfold RiskService.generate_risk_analysis at hok
    rcases hclaims : RiskService.get_claims_version db cvid with e | v <;>
      rw [hclaims] at hok
    · exact absurd hok (by simp)
    · rw [except_bind_ok] at hok
      obtain rfl := (Except.ok.inj hok).symm
      exact ⟨rfl, rfl, rfl, rfl⟩
  · intro db a svid p hok
    unfold RiskService.re_evaluate_risk_post_spec at hok
    rcases hclaims : RiskService.get_claims_version db none with e | v <;>
      rw [hclaims] at hok
    · exact absurd hok (by simp)
    · rw [except_bind_ok] at hok
      rcases hspec : RiskService.get_spec_version db svid with e | v <;>
        rw [hspec] at hok
      · exact absurd hok (by simp)
      · rw [except_bind_ok] at hok
        exact absurd hok (by simp)

/-- C10 witness: a concrete successful generation keeps the status, writes the
score, and stays non-authoritative; the concrete re-evaluation cannot return
the corresponding success. -/
theorem risk_generation_frame_witness :
    ∃ p, RiskService.generate_risk_analysis riskDb ⟨70, "Improved."⟩ none = .ok p ∧
      p.1.matter.status = riskDb.matter.status ∧
      p.1.matter.defensibility_score = some 70 ∧
      p.2.is_authoritative = false ∧
      RiskService.re_evaluate_risk_post_spec riskDb ⟨70, "Improved."⟩ none ≠ .ok p := by
  obtain ⟨h1, h2, h3, -⟩ :=
    risk_generation_frame.1 riskDb ⟨70, "Improved."⟩ none _ rfl
  exact ⟨_, rfl, h1, h2, h3,
    risk_generation_frame.2 riskDb ⟨70, "Improved."⟩ none _⟩

end Certis
